import Mathlib

/-!
Verification of the answer-extraction and answer-scoring pipeline
(`answer_extraction.py`, `answer_scoring.py`) of the unpuzzles repository.

The Python functions are shallowly embedded: dictionaries become association
lists kept in insertion order, Python scalars occurring in itinerary tuples
become the inductive `PyScalar`, float costs are modelled as exact rationals,
and a Python call that can raise an uncaught exception returns
`Except PyErr`.
-/

/-- The uncaught Python exceptions the embedded code can raise. -/
inductive PyErr where
  | indexError
  | valueError
  | nameError
  | typeError
  | syntaxError
  | attributeError
deriving DecidableEq, Repr

/-- A Python scalar as it occurs in itinerary tuples and extracted answers:
a string, an integer, or `None`.  Python `==` across these types is plain
decidable equality: values of different types are never equal. -/
inductive PyScalar where
  | str : String → PyScalar
  | int : Int → PyScalar
  | pyNone : PyScalar
deriving DecidableEq, Repr

/-- Python `+` on scalars: string concatenation, integer addition; any mixed
or `None` operand raises `TypeError`, modelled as `Option.none`. -/
def pyAdd : PyScalar → PyScalar → Option PyScalar
  | .str a, .str b => some (.str (a ++ b))
  | .int a, .int b => some (.int (a + b))
  | _, _ => Option.none

/-- One itinerary step: a Python tuple of any length. -/
abbrev Step := List PyScalar

/-- A well-formed 3-tuple step `(origin, destination, mode)`. -/
abbrev Step3 := PyScalar × PyScalar × PyScalar

/-- The Python tuple a `Step3` denotes. -/
def toStep (t : Step3) : Step := [t.1, t.2.1, t.2.2]

/-- The travel graph `dict[str, dict[str, list[str]]]` as an association
list in insertion order. -/
abbrev Graph := List (String × List (String × List String))

/-- Python `city1 in graph` followed by `graph[city1]`: a non-string key is
a member of no string-keyed dict. -/
def graphNbrs (graph : Graph) (c : PyScalar) : Option (List (String × List String)) :=
  match c with
  | .str name => graph.lookup name
  | _ => Option.none

/-- Python `city2 in graph[city1]` followed by the lookup. -/
def nbrModes (nbrs : List (String × List String)) (c : PyScalar) : Option (List String) :=
  match c with
  | .str name => nbrs.lookup name
  | _ => Option.none

/-- Python `mode in graph[city1][city2]` (list membership). -/
def modeOk (modes : List String) (c : PyScalar) : Bool :=
  match c with
  | .str name => modes.contains name
  | _ => false

/-- The edge test of `_validate_connectivity`:
`city1 in graph and city2 in graph[city1] and mode in graph[city1][city2]`. -/
def edgeOk (graph : Graph) (c1 c2 m : PyScalar) : Bool :=
  match graphNbrs graph c1 with
  | Option.none => false
  | some nbrs =>
    match nbrModes nbrs c2 with
    | Option.none => false
    | some modes => modeOk modes m

/-- The loop of `_validate_connectivity`: walks the steps keeping the set of
visited cities and the running current city; `Option.none` is an early
`return False` (malformed step, missing edge, or a continuity break). -/
def connWalk (graph : Graph) : List Step → Finset PyScalar → PyScalar → Option (Finset PyScalar)
  | [], visited, _ => some visited
  | step :: rest, visited, current =>
    match step with
    | [city1, city2, mode] =>
      if edgeOk graph city1 city2 mode then
        if city1 = current then
          connWalk graph rest (insert city2 (insert city1 visited)) city2
        else Option.none
      else Option.none
    | _ => Option.none

/-- `_validate_connectivity` from `answer_scoring.py`: walk the plan from
`city_start`, then require at least `num_cities` distinct visited cities. -/
def validateConnectivity (cityStart : String) (numCities : ℕ) (graph : Graph)
    (userSolution : List Step) : Bool :=
  match connWalk graph userSolution ∅ (.str cityStart) with
  | Option.none => false
  | some visited => if visited.card < numCities then false else true

/-- The composite key `city1 + city2 + mode`; `Option.none` is a `TypeError`
raised by Python `+`. -/
def tripleKey (c1 c2 m : PyScalar) : Option PyScalar :=
  match pyAdd c1 c2 with
  | some k => pyAdd k m
  | Option.none => Option.none

/-- Python `key in costs` followed by `costs[key]` on the string-keyed cost
table: a non-string key is in no such dict. -/
def costsLookup (costs : List (String × ℚ)) (key : PyScalar) : Option ℚ :=
  match key with
  | .str k => costs.lookup k
  | _ => Option.none

/-- The loop of `_validate_budget` carrying `total_cost`.  A `TypeError`
from the key concatenation is caught by the `try` block (`return False`); a
missing key is `return False`; unpacking a tuple whose length is not 3
raises an uncaught `ValueError`.  After the loop the total may not exceed
the budget. -/
def budgetLoop (costs : List (String × ℚ)) (totalBudget : ℚ) :
    List Step → ℚ → Except PyErr Bool
  | [], totalCost => if totalCost > totalBudget then .ok false else .ok true
  | step :: rest, totalCost =>
    match step with
    | [city1, city2, mode] =>
      match tripleKey city1 city2 mode with
      | Option.none => .ok false
      | some key =>
        match costsLookup costs key with
        | Option.none => .ok false
        | some c => budgetLoop costs totalBudget rest (totalCost + c)
    | _ => .error .valueError

/-- `_validate_budget` from `answer_scoring.py`. -/
def validateBudget (costs : List (String × ℚ)) (totalBudget : ℚ)
    (userSolution : List Step) : Except PyErr Bool :=
  budgetLoop costs totalBudget userSolution 0

/-- The `correct_answer` dictionary of the travel task. -/
structure TravelGT where
  cityStart : String
  cityEnd : String
  totalBudget : ℚ
  steps : ℕ
  graph : Graph
  costs : List (String × ℚ)

/-- `score_travel_eval` from `answer_scoring.py`.  `user_solution[-1][1]`
raises `IndexError` when the last step has fewer than 2 fields; an uncaught
exception from `_validate_budget` propagates. -/
def scoreTravelEval (ca : TravelGT) (userSolution : List Step) : Except PyErr Bool :=
  match userSolution.getLast? with
  | Option.none => .ok false
  | some last =>
    match last[1]? with
    | Option.none => .error .indexError
    | some dest =>
      if dest = PyScalar.str ca.cityEnd then
        if validateConnectivity ca.cityStart ca.steps ca.graph userSolution then
          match validateBudget ca.costs ca.totalBudget userSolution with
          | .error e => .error e
          | .ok b => if b then .ok true else .ok false
        else .ok false
      else .ok false

/-- Python `==` between a candidate element (an int or `None`) and a
ground-truth int. -/
def countValEq : Option Int → Int → Bool
  | Option.some m, v => m = v
  | Option.none, _ => false

/-- `score_count_eval` from `answer_scoring.py`: an empty candidate is
false; otherwise compare pairwise against the mapping's values in insertion
order, `zip` truncating to the shorter sequence. -/
def scoreCountEval (correctAnswer : List (String × Int)) (answer : List (Option Int)) : Bool :=
  if answer.isEmpty then false
  else ((answer.zip (correctAnswer.map Prod.snd)).all fun p => countValEq p.1 p.2)

/-- `score_mathgap_eval` from `answer_scoring.py`: Python `==` between the
stored answer and the extracted answer. -/
def scoreMathgapEval (correctAnswer : PyScalar) (answer : PyScalar) : Bool :=
  correctAnswer = answer

/-- `score_logic_eval` from `answer_scoring.py`. -/
def scoreLogicEval (correctAnswer : String) (answer : String) : Bool :=
  if answer.isEmpty then false
  else correctAnswer.toLower = answer.toLower

/-- The per-task payloads a task descriptor's `answer` field can store. -/
inductive GTData where
  | count : List (String × Int) → GTData
  | mathgap : PyScalar → GTData
  | travel : TravelGT → GTData
  | logic : String → GTData

/-- The per-task shapes an extracted candidate can take. -/
inductive CandData where
  | count : List (Option Int) → CandData
  | mathgap : PyScalar → CandData
  | travel : List Step → CandData
  | logic : String → CandData

/-- `score_eval` from `answer_scoring.py`: dispatch on the task tag.  A call
whose payloads do not match the dispatched scorer's annotated types is
outside the embedding and mapped to `.error .typeError`; the stored data is
well typed per task and no theorem exercises those arms. -/
def scoreEval (task : String) (gtAnswer : GTData) (answer : CandData) : Except PyErr Bool :=
  if task = "character_count" ∨ task = "word_count" then
    match gtAnswer, answer with
    | .count g, .count a => .ok (scoreCountEval g a)
    | _, _ => .error .typeError
  else if task = "mathgap_diverse" ∨ task = "mathgap_irrelevant" then
    match gtAnswer, answer with
    | .mathgap g, .mathgap a => .ok (scoreMathgapEval g a)
    | _, _ => .error .typeError
  else if task = "travel" then
    match gtAnswer, answer with
    | .travel g, .travel a => scoreTravelEval g a
    | _, _ => .error .typeError
  else if task = "logic_negation" ∨ task = "logic_evaluation" then
    match gtAnswer, answer with
    | .logic g, .logic a => .ok (scoreLogicEval g a)
    | _, _ => .error .typeError
  else .ok false

/-- The whitespace characters Python `str.strip` and `int` strip. -/
def pyIsSpace (c : Char) : Bool :=
  c = ' ' ∨ c = '\t' ∨ c = '\n' ∨ c = '\r' ∨ c = '\x0b' ∨ c = '\x0c'

/-- Strip Python whitespace from both ends of a character list. -/
def stripWS (l : List Char) : List Char :=
  ((l.dropWhile pyIsSpace).reverse.dropWhile pyIsSpace).reverse

/-- Digit run to a natural number. -/
def digitsToNat (ds : List Char) : ℕ :=
  ds.foldl (fun n c => 10 * n + (c.toNat - 48)) 0

/-- Python `int(s)` on a decimal string: strip whitespace, optional sign,
then a non-empty digit run; anything else raises `ValueError`
(`Option.none`).  Underscore digit separators are not modelled; no input
below contains one. -/
def pyIntParse (s : String) : Option Int :=
  match stripWS s.data with
  | '-' :: ds =>
    if ds ≠ [] ∧ ds.all Char.isDigit then some (-(digitsToNat ds : Int)) else Option.none
  | '+' :: ds =>
    if ds ≠ [] ∧ ds.all Char.isDigit then some (digitsToNat ds : Int) else Option.none
  | ds =>
    if ds ≠ [] ∧ ds.all Char.isDigit then some (digitsToNat ds : Int) else Option.none

/-- `_text_to_int` from `answer_extraction.py`: English number word to int,
`None` for an unknown word. -/
def textToInt (s : String) : PyScalar :=
  if s = "zero" then .int 0
  else if s = "one" then .int 1
  else if s = "two" then .int 2
  else if s = "three" then .int 3
  else if s = "four" then .int 4
  else if s = "five" then .int 5
  else if s = "six" then .int 6
  else if s = "seven" then .int 7
  else if s = "eight" then .int 8
  else if s = "nine" then .int 9
  else if s = "ten" then .int 10
  else if s = "eleven" then .int 11
  else if s = "twelve" then .int 12
  else if s = "thirteen" then .int 13
  else if s = "fourteen" then .int 14
  else if s = "fifteen" then .int 15
  else if s = "sixteen" then .int 16
  else if s = "seventeen" then .int 17
  else if s = "eighteen" then .int 18
  else if s = "nineteen" then .int 19
  else if s = "twenty" then .int 20
  else .pyNone

/-- One pass of `re.sub` dropping `mark` when a digit follows
(the patterns `#(\d+)` and `\\(\d+)` replaced by the digits). -/
def stripMarkBefore (mark : Char) : List Char → List Char
  | [] => []
  | c :: rest =>
    match rest with
    | d :: _ =>
      if c = mark ∧ d.isDigit then stripMarkBefore mark rest
      else c :: stripMarkBefore mark rest
    | [] => [c]

/-- One pass of `re.sub` dropping `mark` right after a digit run
(the patterns `(\d+)#` and `(\d+)\\`); the flag says whether the scan sits
right after digits of an unconsumed match. -/
def stripMarkAfter (mark : Char) : Bool → List Char → List Char
  | _, [] => []
  | prevDigit, c :: rest =>
    if c = mark ∧ prevDigit then stripMarkAfter mark false rest
    else c :: stripMarkAfter mark c.isDigit rest

/-- One pass of `re.sub` on `\*\*(\d+)`: drop a `**` that a digit follows. -/
def stripStarsBefore : List Char → List Char
  | '*' :: '*' :: c :: rest =>
    if c.isDigit then stripStarsBefore (c :: rest)
    else '*' :: stripStarsBefore ('*' :: c :: rest)
  | c :: rest => c :: stripStarsBefore rest
  | [] => []

/-- One pass of `re.sub` on `(\d+)\*\*`: drop a `**` right after digits. -/
def stripStarsAfter : Bool → List Char → List Char
  | _, [] => []
  | prevDigit, '*' :: '*' :: rest =>
    if prevDigit then stripStarsAfter false rest
    else '*' :: stripStarsAfter false ('*' :: rest)
  | _, c :: rest => c :: stripStarsAfter c.isDigit rest

/-- `_remove_text_formatting` from `answer_extraction.py`: the six `re.sub`
passes in source order. -/
def removeTextFormatting (s : String) : String :=
  String.mk (stripMarkAfter '\\' false (stripMarkBefore '\\'
    (stripStarsAfter false (stripStarsBefore
      (stripMarkAfter '#' false (stripMarkBefore '#' s.data))))))

/-- Whether `"time"` occurs further right with no newline in between
(the `.*?time` tail of the single-count pattern). -/
def findTimeNoNL : List Char → Bool
  | [] => false
  | c :: rest =>
    if "time".data.isPrefixOf (c :: rest) then true
    else if c = '\n' then false
    else findTimeNoNL rest

/-- The `.*?(\d+).*?time` tail of `appear.*?(\d+).*?time` after a literal
`appear`: the lazy prefix takes the earliest digit run (newline-free) whose
end still reaches a `time`; the greedy `\d+` captures the whole run. -/
def countScanDigits : List Char → Option String
  | [] => Option.none
  | c :: rest =>
    if c.isDigit then
      let run := (c :: rest).takeWhile Char.isDigit
      if findTimeNoNL ((c :: rest).drop run.length) then some (String.mk run)
      else countScanDigits rest
    else if c = '\n' then Option.none
    else countScanDigits rest

/-- `re.search` of `appear.*?(\d+).*?time`: leftmost `appear` from which the
tail completes wins; its capture is the group. -/
def countSearch : List Char → Option String
  | [] => Option.none
  | c :: rest =>
    if "appear".data.isPrefixOf (c :: rest) then
      match countScanDigits ((c :: rest).drop 6) with
      | some cap => some cap
      | Option.none => countSearch rest
    else countSearch rest

/-- The `\\?\]\** time` closer of the multi-count pattern: optional
backslash, `]`, a star run, then the literal `" time"`. -/
def multiClose (v : List Char) : Bool :=
  match (match v with | '\\' :: r => r | _ => v) with
  | ']' :: w => " time".data.isPrefixOf (w.dropWhile (fun c => c = '*'))
  | _ => false

/-- The greedy optional group `(.+)?` before the closer: try the longest
content first, then shorter, and last the absent group (`Option.none`
inside `some`). -/
def multiGroup (u : List Char) : ℕ → Option (Option String)
  | 0 => if multiClose u then some Option.none else Option.none
  | n + 1 =>
    if n + 1 ≤ u.length ∧ multiClose (u.drop (n + 1)) then
      some (some (String.mk (u.take (n + 1))))
    else multiGroup u n

/-- The `\**\\?\[(.+)?\\?\]\** time` tail after the literal `appear `: a
star run, an optional backslash, `[`, then the optional group and closer. -/
def multiTail (t : List Char) : Option (Option String) :=
  let t1 := t.dropWhile (fun c => c = '*')
  match (match t1 with | '\\' :: r => r | _ => t1) with
  | '[' :: u => multiGroup u u.length
  | _ => Option.none

/-- One line of the multi-count search.  The greedy `.*` prefix of
`.*appear ...` prefers the rightmost `appear ` on the line whose tail
completes. -/
def lineScanMulti : List Char → Option (Option String)
  | [] => Option.none
  | c :: rest =>
    match lineScanMulti rest with
    | some r => some r
    | Option.none =>
      if "appear ".data.isPrefixOf (c :: rest) then multiTail ((c :: rest).drop 7)
      else Option.none

/-- `re.search` of `.*appear \**\\?\[(.+)?\\?\]\** time`: no element of the
pattern matches a newline, so the first line with a match decides; the
result is the group (absent when `(.+)?` did not participate). -/
def countMultiSearch (l : List Char) : Option (Option String) :=
  (l.splitOn '\n').findSome? lineScanMulti

/-- `extract_count_eval` from `answer_extraction.py`.  In the `k != 1`
branch with no match, `return [ans] * k` reads the local `ans` that no
branch has assigned, raising `UnboundLocalError` (a `NameError`); when the
group is absent, `match_obj.group(1)` is `None` and `None.split(",")`
raises `AttributeError`. -/
def extractCountEval (response : String) (k : Int) : Except PyErr (List PyScalar) :=
  if k = 1 then
    match countSearch response.data with
    | Option.none => .ok [.str ""]
    | some s =>
      let s2 := removeTextFormatting s
      match pyIntParse s2 with
      | some n => .ok [.int n]
      | Option.none => .ok [textToInt s2]
  else
    match countMultiSearch response.data with
    | Option.none => .error .nameError
    | some Option.none => .error .attributeError
    | some (some content) =>
      let answers := (content.splitOn ",").map fun p =>
        let f := removeTextFormatting p
        match pyIntParse f with
        | some n => PyScalar.int n
        | Option.none => textToInt f
      if (answers.length : Int) ≠ k then .ok [.str ""] else .ok answers

/-- A Python literal value `ast.literal_eval` can produce in this pipeline. -/
inductive PyVal where
  | str : String → PyVal
  | int : Int → PyVal
  | bool : Bool → PyVal
  | noneV : PyVal
  | tuple : List PyVal → PyVal
  | list : List PyVal → PyVal
deriving Repr

/-- The lazy `(.*?)` of the code-block pattern under `DOTALL`: content up to
the first closing triple backtick, with what follows it. -/
def findCloseBlock : List Char → Option (List Char × List Char)
  | [] => Option.none
  | c :: rest =>
    if "```".data.isPrefixOf (c :: rest) then some ([], (c :: rest).drop 3)
    else
      match findCloseBlock rest with
      | some (content, rem) => some (c :: content, rem)
      | Option.none => Option.none

/-- Fuelled scan for `re.findall` of the fenced-code-block pattern; every
match consumes at least 13 characters, so fuel equal to the input length
never runs out. -/
def codeBlocksFuel : ℕ → List Char → List String
  | 0, _ => []
  | _ + 1, [] => []
  | fuel + 1, c :: rest =>
    if "```python\n".data.isPrefixOf (c :: rest) then
      match findCloseBlock ((c :: rest).drop 10) with
      | some (content, rem) => String.mk content :: codeBlocksFuel fuel rem
      | Option.none => codeBlocksFuel fuel rest
    else codeBlocksFuel fuel rest

/-- All fenced python code blocks of the response, in order. -/
def codeBlocks (l : List Char) : List String :=
  codeBlocksFuel l.length l

/-- One `\(([^()]+)\)` match attempt right after an opening parenthesis:
at least one character, none of them a parenthesis, then `)`. -/
def grabParen (l : List Char) : Option (List Char × List Char) :=
  let content := l.takeWhile fun c => ¬ (c = '(' ∨ c = ')')
  match l.drop content.length with
  | ')' :: after => if content.isEmpty then Option.none else some (content, after)
  | _ => Option.none

/-- Python `p.startswith(q) and p.endswith(q)` for a one-character `q`. -/
def startsEndsWith (q : List Char) (c : Char) : Bool :=
  match q with
  | [] => false
  | d :: _ => d = c && q.getLast? = some c

/-- The replacer of `_insert_quotes_in_tuples` on one stripped part: keep a
part already quoted either way, otherwise wrap it in single quotes. -/
def quotePart (p : List Char) : List Char :=
  if startsEndsWith p '\'' || startsEndsWith p '"' then p
  else '\'' :: (p ++ ['\''])

/-- The replacer of `_insert_quotes_in_tuples` on the content of one
parenthesized group: split on commas, strip each part, quote it, and join
with `", "` inside parentheses. -/
def quoteGroup (content : List Char) : List Char :=
  let parts := (content.splitOn ',').map fun p => quotePart (stripWS p)
  '(' :: (List.intercalate ", ".data parts ++ [')'])

/-- Fuelled scan for `re.sub` of `\(([^()]+)\)`: every match consumes at
least 3 characters, so fuel equal to the input length never runs out. -/
def insertQuotesFuel : ℕ → List Char → List Char
  | 0, l => l
  | _ + 1, [] => []
  | fuel + 1, c :: rest =>
    if c = '(' then
      match grabParen rest with
      | some (content, after) => quoteGroup content ++ insertQuotesFuel fuel after
      | Option.none => c :: insertQuotesFuel fuel rest
    else c :: insertQuotesFuel fuel rest

/-- `_insert_quotes_in_tuples` from `answer_extraction.py`. -/
def insertQuotes (l : List Char) : List Char :=
  insertQuotesFuel l.length l

/-- Scan a Python string literal body up to the closing quote; a raw
newline or the end of input is a `SyntaxError` (`Option.none`).  Escape
sequences are not modelled; no input below contains one. -/
def scanTo (q : Char) : List Char → Option (List Char × List Char)
  | [] => Option.none
  | c :: rest =>
    if c = q then some ([], rest)
    else if c = '\n' then Option.none
    else
      match scanTo q rest with
      | some (content, rem) => some (c :: content, rem)
      | Option.none => Option.none

/-- Identifier characters of a Python name token. -/
def isIdentChar (c : Char) : Bool :=
  c.isAlphanum || c = '_'

/-- Fuelled recursive-descent `ast.literal_eval` on the fragment this
pipeline can meet: string, int, `True`/`False`/`None`, tuple and list
literals.  A bare name is a `Name` node, hence `ValueError`; other
malformed text is a `SyntaxError`.  `parseLit` parses one literal,
`parseItems` the comma-separated items before `close`, also reporting
whether a comma was seen (a parenthesized item without one is not a
tuple). -/
def parseStep : ℕ → List Char →
    (Except PyErr (PyVal × List Char)) × (Char → Except PyErr (List PyVal × Bool × List Char))
  | 0, _ => (.error .syntaxError, fun _ => .error .syntaxError)
  | fuel + 1, l =>
    (match l.dropWhile pyIsSpace with
      | '\'' :: r =>
        match scanTo '\'' r with
        | some (content, rem) => .ok (.str (String.mk content), rem)
        | Option.none => .error .syntaxError
      | '"' :: r =>
        match scanTo '"' r with
        | some (content, rem) => .ok (.str (String.mk content), rem)
        | Option.none => .error .syntaxError
      | '[' :: r =>
        match (parseStep fuel r).2 ']' with
        | .ok (items, _, rem) => .ok (.list items, rem)
        | .error e => .error e
      | '(' :: r =>
        match (parseStep fuel r).2 ')' with
        | .ok (items, sawComma, rem) =>
          match items, sawComma with
          | [v], false => .ok (v, rem)
          | _, _ => .ok (.tuple items, rem)
        | .error e => .error e
      | '-' :: r =>
        let ds := (r.dropWhile pyIsSpace).takeWhile Char.isDigit
        if ds.isEmpty then .error .syntaxError
        else .ok (.int (-(digitsToNat ds : Int)), (r.dropWhile pyIsSpace).drop ds.length)
      | '+' :: r =>
        let ds := (r.dropWhile pyIsSpace).takeWhile Char.isDigit
        if ds.isEmpty then .error .syntaxError
        else .ok (.int (digitsToNat ds : Int), (r.dropWhile pyIsSpace).drop ds.length)
      | c :: r =>
        if c.isDigit then
          let ds := (c :: r).takeWhile Char.isDigit
          .ok (.int (digitsToNat ds : Int), (c :: r).drop ds.length)
        else if c.isAlpha || c = '_' then
          let name := (c :: r).takeWhile isIdentChar
          let rem := (c :: r).drop name.length
          if name = "True".data then .ok (.bool true, rem)
          else if name = "False".data then .ok (.bool false, rem)
          else if name = "None".data then .ok (.noneV, rem)
          else .error .valueError
        else .error .syntaxError
      | [] => .error .syntaxError,
     fun close =>
      match l.dropWhile pyIsSpace with
      | c :: r =>
        if c = close then .ok ([], false, r)
        else
          match (parseStep fuel l).1 with
          | .ok (v, rem) =>
            (match rem.dropWhile pyIsSpace with
              | d :: r2 =>
                if d = close then .ok ([v], false, r2)
                else if d = ',' then
                  match (parseStep fuel r2).2 close with
                  | .ok (vs, _, rem2) => .ok (v :: vs, true, rem2)
                  | .error e => .error e
                else .error .syntaxError
              | [] => .error .syntaxError)
          | .error e => .error e
      | [] => .error .syntaxError)

/-- `ast.literal_eval` on the whole string: parse one literal and require
only whitespace after it. -/
def pyLiteralEval (s : String) : Except PyErr PyVal :=
  match (parseStep (2 * s.length + 8) s.data).1 with
  | .ok (v, rem) =>
    if (rem.dropWhile pyIsSpace).isEmpty then .ok v else .error .syntaxError
  | .error e => .error e

/-- Python `x[0]`: `IndexError` on an empty sequence or string,
`TypeError` on a non-subscriptable value. -/
def pyIndex0 : PyVal → Except PyErr PyVal
  | .list (x :: _) => .ok x
  | .list [] => .error .indexError
  | .tuple (x :: _) => .ok x
  | .tuple [] => .error .indexError
  | .str s =>
    match s.data with
    | c :: _ => .ok (.str (String.mk [c]))
    | [] => .error .indexError
  | .int _ => .error .typeError
  | .bool _ => .error .typeError
  | .noneV => .error .typeError

/-- Python `isinstance(x, tuple)`. -/
def isTupleV : PyVal → Bool
  | .tuple _ => true
  | _ => false

/-- Python `isinstance(x, tuple) and len(x) == 3`. -/
def isTuple3 : PyVal → Bool
  | .tuple l => l.length = 3
  | _ => false

/-- `extract_travel_eval` from `answer_extraction.py`.  Only `SyntaxError`
from the literal evaluation is caught; `ValueError` as well as the
`IndexError`/`TypeError` of `travel_plan[0]` propagate.  When
`travel_plan[0]` is a tuple, `list(travel_plan)` is taken (the value is a
list or tuple there, so the catch-all of that match is unreachable);
otherwise the value is wrapped in a singleton list — either way a Python
list, so `isinstance(travel_plan, list)` of the final check holds. -/
def extractTravelEval (response : String) : Except PyErr (List PyVal) :=
  match (codeBlocks response.data).getLast? with
  | Option.none => .ok []
  | some block =>
    let s := insertQuotes (stripWS block.data)
    match pyLiteralEval (String.mk s) with
    | .error .syntaxError => .ok []
    | .error e => .error e
    | .ok tp =>
      match pyIndex0 tp with
      | .error e => .error e
      | .ok first =>
        let plan : List PyVal :=
          if isTupleV first then
            match tp with
            | .tuple l => l
            | .list l => l
            | _ => []
          else [tp]
        if plan.all isTuple3 then .ok plan else .ok []

/-- Whether a capture is one of the four choice letters (`[A-D]`). -/
def isAD (c : Char) : Bool :=
  c = 'A' ∨ c = 'B' ∨ c = 'C' ∨ c = 'D'

/-- One anchored match attempt of a pattern at the head of the input:
the captured group and the number of characters the whole match consumed. -/
abbrev PatStep := List Char → Option (String × ℕ)

/-- `re.search`: try an anchored match at every position left to right and
return the first capture. -/
def searchFirst (step : PatStep) : List Char → Option String
  | [] =>
    match step [] with
    | some (s, _) => some s
    | Option.none => Option.none
  | c :: rest =>
    match step (c :: rest) with
    | some (s, _) => some s
    | Option.none => searchFirst step rest

/-- Fuelled `re.findall`: captures of the non-overlapping matches, the scan
resuming after each match.  Every pattern below consumes at least one
character per match, so fuel equal to the input length never runs out, and
`max k 1` is Python's own resumption rule for a match of length `k`. -/
def scanAllFuel (step : PatStep) : ℕ → List Char → List String
  | 0, _ => []
  | _ + 1, [] => []
  | fuel + 1, c :: rest =>
    match step (c :: rest) with
    | some (s, k) => s :: scanAllFuel step fuel ((c :: rest).drop (max k 1))
    | Option.none => scanAllFuel step fuel rest

/-- `re.findall` of a pattern over the input. -/
def scanAll (step : PatStep) (l : List Char) : List String :=
  scanAllFuel step l.length l

/-- The `:? ` of the logic and unpuzzle patterns: an optional colon then a
mandatory space (backtracking over the optional colon cannot help, since a
colon is not a space). -/
def colonSpace : List Char → Option (List Char × ℕ)
  | ':' :: ' ' :: t => some (t, 2)
  | ' ' :: t => some (t, 1)
  | _ => Option.none

/-- One full `<answer>X</answer>` tag with its choice-letter capture. -/
def htmlAt (l : List Char) : Option Char :=
  if "<answer>".data.isPrefixOf l then
    match l.drop 8 with
    | x :: t => if isAD x && "</answer>".data.isPrefixOf t then some x else Option.none
    | [] => Option.none
  else Option.none

/-- The rightmost full tag of the line, preferred by the greedy `.*` prefix
of `.*<answer>([A-D])</answer>`; the returned offset is the end of that
tag. -/
def htmlLast : List Char → Option (String × ℕ)
  | [] => Option.none
  | c :: rest =>
    match htmlLast rest with
    | some (s, e) => some (s, e + 1)
    | Option.none =>
      match htmlAt (c :: rest) with
      | some x => some (String.mk [x], 17)
      | Option.none => Option.none

/-- Anchored `.*<answer>([A-D])</answer>`: no element matches a newline, so
only the current line is searched. -/
def stepHtml (l : List Char) : Option (String × ℕ) :=
  htmlLast (l.takeWhile fun c => c ≠ '\n')

/-- Anchored `boxed\{([A-D])\}`: the head position fixes the letter, so the
character class is an if-chain over the four literals. -/
def stepBoxedLetter (l : List Char) : Option (String × ℕ) :=
  if "boxed\x7bA\x7d".data.isPrefixOf l then some ("A", 8)
  else if "boxed\x7bB\x7d".data.isPrefixOf l then some ("B", 8)
  else if "boxed\x7bC\x7d".data.isPrefixOf l then some ("C", 8)
  else if "boxed\x7bD\x7d".data.isPrefixOf l then some ("D", 8)
  else Option.none

/-- Anchored `answer:? ([A-D])`. -/
def stepSentence (l : List Char) : Option (String × ℕ) :=
  if "answer".data.isPrefixOf l then
    match colonSpace (l.drop 6) with
    | some (t, c) =>
      match t with
      | x :: _ => if isAD x then some (String.mk [x], 6 + c + 1) else Option.none
      | [] => Option.none
    | Option.none => Option.none
  else Option.none

/-- Anchored `answer.*?([A-D])`: the lazy gap ends at the first choice
letter on the line. -/
def stepSentence2 (l : List Char) : Option (String × ℕ) :=
  if "answer".data.isPrefixOf l then
    let line := (l.drop 6).takeWhile fun c => c ≠ '\n'
    match line.find? isAD with
    | some x => some (String.mk [x], 6 + (line.takeWhile fun c => ¬ isAD c).length + 1)
    | Option.none => Option.none
  else Option.none

/-- `compiled_res` from `answer_extraction.py`: the two rebindings of
`extract_answer_sentence2` leave the html tag, the boxed marker, the
colon-sentence pattern and the lazy `answer.*?([A-D])` pattern, in that
order. -/
def compiledRes : List PatStep :=
  [stepHtml, stepBoxedLetter, stepSentence, stepSentence2]

/-- The loop of `extract_logic_eval`: first pattern whose search matches
wins. -/
def logicGo : List PatStep → List Char → String
  | [], _ => ""
  | p :: ps, l =>
    match searchFirst p l with
    | some s => s
    | Option.none => logicGo ps l

/-- `extract_logic_eval` from `answer_extraction.py`. -/
def extractLogicEval (response : String) : String :=
  logicGo compiledRes response.data

/-- The placeholder literals of `extract_unpuzzle_eval`. -/
def isPlaceholder (s : String) : Bool :=
  s = "your answer" ∨ s = "answer"

/-- The lazy `(.+?)\}` tail of `boxed\{(.+?)\}`: at least one character,
then the first closing brace; a newline aborts. -/
def lazyGo (acc : List Char) : List Char → Option (List Char)
  | [] => Option.none
  | c :: rest =>
    if c = '\x7d' then some acc.reverse
    else if c = '\n' then Option.none
    else lazyGo (c :: acc) rest

/-- The capture of `boxed\{(.+?)\}` right after the opening brace. -/
def lazyCapture : List Char → Option (List Char)
  | [] => Option.none
  | c :: rest => if c = '\n' then Option.none else lazyGo [c] rest

/-- Anchored `boxed\{(.+?)\}` (pattern 1 of `find_answers`). -/
def stepU1 (l : List Char) : Option (String × ℕ) :=
  if "boxed\x7b".data.isPrefixOf l then
    match lazyCapture (l.drop 6) with
    | some content => some (String.mk content, 6 + content.length + 1)
    | Option.none => Option.none
  else Option.none

/-- Start positions of `\*{2}` matches in a line. -/
def starPairs (line : List Char) : List ℕ :=
  List.findIdxs (fun b => b) (line.zipWith (fun a b => a = '*' && b = '*') line.tail)

/-- Anchored `Answer.*\*{2}(.+)\*{2}` (pattern 2): on the rest of the line,
the greedy `(.+)` ends at the last star pair `M`, and the greedy `.*` ends
at the rightmost star pair at least 3 before it. -/
def stepU2 (l : List Char) : Option (String × ℕ) :=
  if "Answer".data.isPrefixOf l then
    let line := (l.drop 6).takeWhile fun c => c ≠ '\n'
    match (starPairs line).getLast? with
    | Option.none => Option.none
    | some M =>
      match ((starPairs line).filter fun a => a + 3 ≤ M).getLast? with
      | Option.none => Option.none
      | some a => some (String.mk ((line.take M).drop (a + 2)), 6 + M + 2)
  else Option.none

/-- The `(.+)\*{2}` tail shared by patterns 3 and 5: the greedy `(.+)` ends
at the last star pair of the line, which must leave content before it. -/
def greedyToStars (t : List Char) (pre : ℕ) : Option (String × ℕ) :=
  let line := t.takeWhile fun c => c ≠ '\n'
  match (starPairs line).getLast? with
  | some M => if 1 ≤ M then some (String.mk (line.take M), pre + M + 2) else Option.none
  | Option.none => Option.none

/-- Anchored `\*{2}Answer:? (.+)\*{2}` (pattern 3). -/
def stepU3 (l : List Char) : Option (String × ℕ) :=
  if "**Answer".data.isPrefixOf l then
    match colonSpace (l.drop 8) with
    | some (t, c) => greedyToStars t (8 + c)
    | Option.none => Option.none
  else Option.none

/-- The `(.+).` tail shared by patterns 4 and 6: the greedy `(.+)` takes
the rest of the line but its last character, which the final `.` takes. -/
def greedyToAny (t : List Char) (pre : ℕ) : Option (String × ℕ) :=
  let line := t.takeWhile fun c => c ≠ '\n'
  if 2 ≤ line.length then some (String.mk line.dropLast, pre + line.length)
  else Option.none

/-- Anchored `answer is:? (.+).` (pattern 4). -/
def stepU4 (l : List Char) : Option (String × ℕ) :=
  if "answer is".data.isPrefixOf l then
    match colonSpace (l.drop 9) with
    | some (t, c) => greedyToAny t (9 + c)
    | Option.none => Option.none
  else Option.none

/-- Anchored `\*{2}answer is:? (.+)\*{2}` (pattern 5). -/
def stepU5 (l : List Char) : Option (String × ℕ) :=
  if "**answer is".data.isPrefixOf l then
    match colonSpace (l.drop 11) with
    | some (t, c) => greedyToStars t (11 + c)
    | Option.none => Option.none
  else Option.none

/-- Anchored `Answer: (.+).` (pattern 6). -/
def stepU6 (l : List Char) : Option (String × ℕ) :=
  if "Answer: ".data.isPrefixOf l then greedyToAny (l.drop 8) 8
  else Option.none

/-- Pattern 7, `/$(.+?)/$`: after `/` the anchor `$` leaves either nothing
or a sole final newline, and `.` matches neither end of input nor a
newline, so `(.+?)` can never take its mandatory character: the pattern
matches no string at all. -/
def stepU7 (_ : List Char) : Option (String × ℕ) :=
  Option.none

/-- `find_answers` from `answer_extraction.py`, in source order. -/
def findAnswers : List PatStep :=
  [stepU1, stepU2, stepU3, stepU4, stepU5, stepU6, stepU7]

/-- The loop of `extract_unpuzzle_eval`: for each pattern in order, return
the first capture that is not a placeholder; a pattern with no matches, or
whose captures are all placeholders, falls through to the next. -/
def unpuzzleGo : List PatStep → List Char → String
  | [], _ => ""
  | p :: ps, l =>
    match (scanAll p l).find? (fun s => ¬ isPlaceholder s) with
    | some s => s
    | Option.none => unpuzzleGo ps l

/-- `extract_unpuzzle_eval` from `answer_extraction.py`. -/
def extractUnpuzzleEval (response : String) : String :=
  unpuzzleGo findAnswers response.data

/-- Spec-side walk condition of the connectivity claim: in order, each
step's origin equals the running current city (starting from the given
city) and each (origin, destination, mode) triple exists in the graph with
the mode permitted on that edge. -/
def specStepsOk (graph : Graph) : PyScalar → List Step3 → Bool
  | _, [] => true
  | current, st :: rest =>
    decide (st.1 = current) && edgeOk graph st.1 st.2.1 st.2.2 &&
      specStepsOk graph st.2.1 rest

/-- Spec-side visited set of the connectivity claim: all origins and
destinations of the itinerary. -/
def specVisited (sol : List Step3) : Finset PyScalar :=
  (sol.flatMap fun st => [st.1, st.2.1]).toFinset

/-- Spec-side cost of one step of the budget claim: the composite key must
concatenate to a string present in the cost table. -/
def stepCost (costs : List (String × ℚ)) (st : Step3) : Option ℚ :=
  match tripleKey st.1 st.2.1 st.2.2 with
  | some key => costsLookup costs key
  | Option.none => Option.none

/-- A two-edge graph for the continuity counterexample of the connectivity
claim. -/
def exGraphC1 : Graph := [("A", [("B", ["car"]), ("C", ["car"])])]

/-- An itinerary whose steps both exist in `exGraphC1` but whose second
origin is not the running current city. -/
def exSolC1 : List Step3 :=
  [(.str "A", .str "B", .str "car"), (.str "A", .str "C", .str "car")]

/-- A minimal travel ground truth for concrete scorer evaluations. -/
def exGT : TravelGT := ⟨"a", "b", 0, 0, [], []⟩

/-- Python `pat in l`: whether `pat` occurs as a contiguous substring. -/
def hasSub (pat : List Char) : List Char → Bool
  | [] => pat.isPrefixOf []
  | l@(_ :: rest) => pat.isPrefixOf l || hasSub pat rest

/-- Elementwise reading of the truncating `zip`-and-`all` comparison. -/
theorem zipAll_iff (a : List (Option Int)) : ∀ l : List Int,
    ((a.zip l).all fun p => countValEq p.1 p.2) = true ↔
      ∀ i, i < a.length → i < l.length →
        countValEq (a.getD i Option.none) (l.getD i 0) = true := by
  induction a with
  | nil => intro l; simp
  | cons x a ih =>
    intro l
    cases l with
    | nil => simp
    | cons y l =>
      simp only [List.zip_cons_cons, List.all_cons, Bool.and_eq_true, ih l]
      constructor
      · rintro ⟨hxy, h⟩ i hi hl
        cases i with
        | zero => simpa using hxy
        | succ j =>
          simp only [List.getD_cons_succ]
          exact h j (by simpa using hi) (by simpa using hl)
      · intro h
        refine ⟨by simpa using h 0 (by simp) (by simp), fun j hj hl => ?_⟩
        simpa using h (j + 1) (by simpa using hj) (by simpa using hl)

/-- A non-empty candidate list is not `isEmpty`. -/
theorem isEmpty_false_of_ne {a : List (Option Int)} (ha : a ≠ []) :
    a.isEmpty = false := by
  cases a with
  | nil => exact absurd rfl ha
  | cons x a => rfl

/-- C8: for every non-empty candidate sequence and ground-truth mapping,
the counting scorer is true iff each candidate element equals the
corresponding ground-truth value (values in insertion order) up to the
length of the shorter sequence, elements beyond that length being ignored;
in particular `[3, 4]` against values `3, 4, 5` scores true, and an empty
candidate always scores false. -/
theorem count_zip_truncation_spec :
    (∀ (g : List (String × Int)) (a : List (Option Int)), a ≠ [] →
      (scoreCountEval g a = true ↔
        ∀ i, i < a.length → i < g.length →
          countValEq (a.getD i Option.none) ((g.map Prod.snd).getD i 0) = true))
    ∧ scoreCountEval [("a", 3), ("b", 4), ("c", 5)] [some 3, some 4] = true
    ∧ (∀ g : List (String × Int), scoreCountEval g [] = false) := by
  refine ⟨?_, by decide, fun g => rfl⟩
  intro g a ha
  unfold scoreCountEval
  rw [isEmpty_false_of_ne ha]
  simp only [Bool.false_eq_true, if_false]
  rw [zipAll_iff]
  simp only [List.length_map]

/-- C10: with a non-empty candidate, an empty ground-truth mapping scores
true, and more generally a ground truth with at most as many values as the
candidate scores true as soon as the candidate's prefix of that length
matches; the candidate's extra elements never cause a false verdict. -/
theorem count_extra_candidate_elements_ignored :
    (∀ a : List (Option Int), a ≠ [] → scoreCountEval [] a = true)
    ∧ (∀ (g : List (String × Int)) (a : List (Option Int)), a ≠ [] →
        g.length ≤ a.length →
        (∀ i, i < g.length →
          countValEq (a.getD i Option.none) ((g.map Prod.snd).getD i 0) = true) →
        scoreCountEval g a = true) := by
  constructor
  · intro a ha
    unfold scoreCountEval
    rw [isEmpty_false_of_ne ha]
    simp
  · intro g a ha hlen h
    unfold scoreCountEval
    rw [isEmpty_false_of_ne ha]
    simp only [Bool.false_eq_true, if_false]
    rw [zipAll_iff]
    intro i hia hil
    exact h i (by simpa using hil)

/-- Witness for the conditional parts of C8 at a concrete input. -/
theorem count_zip_truncation_spec_witness :
    scoreCountEval [("a", 3), ("b", 4), ("c", 5)] [some 3, some 4] = true :=
  (count_zip_truncation_spec.1 [("a", 3), ("b", 4), ("c", 5)] [some 3, some 4]
    (by decide)).mpr (by decide)

/-- Witness for the conditional parts of C10 at a concrete input. -/
theorem count_extra_candidate_elements_ignored_witness :
    scoreCountEval [] [some 7] = true :=
  count_extra_candidate_elements_ignored.1 [some 7] (by decide)

/-- C9 counterexample: for the counting tasks the `[None]` sentinel scores
true against an empty stored ground-truth mapping (zip truncation leaves
nothing to compare), where the claim demands false. -/
theorem score_sentinel_empty_gt_cex :
    scoreEval "word_count" (GTData.count []) (CandData.count [Option.none]) =
      Except.ok true := rfl

/-- C9 as amended: scoring each task's empty/null sentinel yields false for
every task tag and every stored ground truth — for the counting tasks
provided the stored ground-truth mapping is non-empty (an empty mapping
scores the sentinel true by zip truncation), and for mathgap provided the
stored ground truth is not itself null (the spec's own precondition: a null
ground truth would equal the null sentinel); the mathgap ground truth
ranges over every other scalar, integers included. -/
theorem score_sentinel_false_amended :
    (∀ (t : String) (g : List (String × Int)),
        (t = "character_count" ∨ t = "word_count") → g ≠ [] →
        scoreEval t (.count g) (.count [Option.none]) = .ok false)
    ∧ (∀ (t : String) (g : PyScalar),
        (t = "mathgap_diverse" ∨ t = "mathgap_irrelevant") → g ≠ .pyNone →
        scoreEval t (.mathgap g) (.mathgap .pyNone) = .ok false)
    ∧ (∀ g : TravelGT, scoreEval "travel" (.travel g) (.travel []) = .ok false)
    ∧ (∀ (t : String) (g : String),
        (t = "logic_negation" ∨ t = "logic_evaluation") →
        scoreEval t (.logic g) (.logic "") = .ok false)
    ∧ (∀ (t : String) (gt : GTData) (ans : CandData),
        t ∉ ["character_count", "word_count", "mathgap_diverse", "mathgap_irrelevant",
             "travel", "logic_negation", "logic_evaluation"] →
        scoreEval t gt ans = .ok false) := by
  refine ⟨?_, ?_, ?_, ?_, ?_⟩
  · intro t g ht hg
    have hcount : scoreCountEval g [Option.none] = false := by
      cases g with
      | nil => exact absurd rfl hg
      | cons p g => rfl
    rcases ht with rfl | rfl <;> simp [scoreEval, hcount]
  · intro t g ht hg
    have hmg : scoreMathgapEval g .pyNone = false := by
      simp [scoreMathgapEval, hg]
    rcases ht with rfl | rfl <;> simp [scoreEval, hmg]
  · intro g
    simp [scoreEval, scoreTravelEval]
  · intro t g ht
    have hlogic : scoreLogicEval g "" = false := rfl
    rcases ht with rfl | rfl <;> simp [scoreEval, hlogic]
  · intro t gt ans ht
    simp only [List.mem_cons, List.not_mem_nil, or_false, not_or] at ht
    obtain ⟨h1, h2, h3, h4, h5, h6, h7⟩ := ht
    simp [scoreEval, h1, h2, h3, h4, h5, h6, h7]

/-- Witness for the conditional parts of the amended C9 at concrete
inputs. -/
theorem score_sentinel_false_amended_witness :
    scoreEval "word_count" (GTData.count [("a", 1)]) (CandData.count [Option.none]) =
      Except.ok false :=
  score_sentinel_false_amended.1 "word_count" [("a", 1)] (Or.inr rfl) (by decide)

/-- Inserting the two cities of a step before the walk is the same as
collecting them into the visited set afterwards. -/
theorem insert_union_swap (a b : PyScalar) (s t : Finset PyScalar) :
    insert b (insert a s) ∪ t = s ∪ insert a (insert b t) := by
  ext x
  simp only [Finset.mem_union, Finset.mem_insert]
  tauto

/-- The connectivity loop on an itinerary of 3-tuples: it succeeds exactly
on the spec-side walk condition, and then returns the starting set joined
with all origins and destinations. -/
theorem connWalk_toStep (graph : Graph) : ∀ (sol : List Step3)
    (visited : Finset PyScalar) (current : PyScalar),
    connWalk graph (sol.map toStep) visited current =
      if specStepsOk graph current sol then some (visited ∪ specVisited sol)
      else Option.none := by
  intro sol
  induction sol with
  | nil =>
    intro visited current
    simp [connWalk, specStepsOk, specVisited]
  | cons st rest ih =>
    intro visited current
    simp only [List.map_cons, toStep, connWalk]
    by_cases he : edgeOk graph st.1 st.2.1 st.2.2
    · by_cases hc : st.1 = current
      · rw [if_pos he, if_pos hc, ih]
        have hvis : specVisited (st :: rest) =
            insert st.1 (insert st.2.1 (specVisited rest)) := by
          simp [specVisited, List.flatMap_cons]
        by_cases hs : specStepsOk graph st.2.1 rest
        · rw [if_pos hs, if_pos (by
            simp only [specStepsOk, Bool.and_eq_true, decide_eq_true_eq]
            exact ⟨⟨hc, he⟩, hs⟩)]
          rw [hvis, insert_union_swap]
        · rw [if_neg hs, if_neg (by simp [specStepsOk, hs])]
      · rw [if_pos he, if_neg hc, if_neg (by simp [specStepsOk, hc])]
    · rw [if_neg he, if_neg (by simp [specStepsOk, he])]

/-- C1: on a non-empty itinerary of 3-tuples ending at the end city, the
connectivity validator accepts iff walking the steps in order from the
start city each origin equals the running current city and each triple is
an edge of the graph with its mode permitted, and the set of all origins
and destinations reaches the required number of unique cities; in
particular, on `exSolC1` every step exists in `exGraphC1` yet the validator
rejects because the second origin differs from the running current city. -/
theorem travel_connectivity_spec :
    (∀ (cityStart cityEnd : String) (numCities : ℕ) (graph : Graph) (sol : List Step3),
        sol ≠ [] →
        (sol.map fun st => st.2.1).getLast? = some (.str cityEnd) →
        (validateConnectivity cityStart numCities graph (sol.map toStep) = true ↔
          (specStepsOk graph (.str cityStart) sol = true ∧
            numCities ≤ (specVisited sol).card)))
    ∧ (exSolC1.all (fun st => edgeOk exGraphC1 st.1 st.2.1 st.2.2) = true
        ∧ validateConnectivity "A" 0 exGraphC1 (exSolC1.map toStep) = false) := by
  constructor
  · intro cs ce n graph sol hne hlast
    unfold validateConnectivity
    rw [connWalk_toStep]
    by_cases h : specStepsOk graph (.str cs) sol
    · rw [if_pos h]
      simp only [h, true_and, Finset.empty_union]
      rcases Nat.lt_or_ge (specVisited sol).card n with hcard | hcard
      · rw [if_pos hcard]
        simp only [Bool.false_eq_true, false_iff]
        omega
      · rw [if_neg (by omega)]
        exact iff_of_true rfl hcard
    · rw [if_neg h]
      simp [h]
  · exact ⟨by decide, by decide⟩

/-- Witness for the conditional part of C1 at a concrete input: the
one-step Fresno to Irvine itinerary of the spec's test is accepted. -/
theorem travel_connectivity_spec_witness :
    validateConnectivity "Fresno" 2 [("Fresno", [("Irvine", ["motorhome"])])]
      ([((PyScalar.str "Fresno"), PyScalar.str "Irvine", PyScalar.str "motorhome")].map toStep)
      = true :=
  (travel_connectivity_spec.1 "Fresno" "Irvine" 2 [("Fresno", [("Irvine", ["motorhome"])])]
    [((PyScalar.str "Fresno"), PyScalar.str "Irvine", PyScalar.str "motorhome")]
    (by decide) (by decide)).mpr (by decide)

/-- The budget loop on an itinerary of 3-tuples: it never raises, every
composite key must resolve to a present cost, and the accumulated total of
those costs may not exceed the budget. -/
theorem budgetLoop_toStep (costs : List (String × ℚ)) (budget : ℚ) :
    ∀ (sol : List Step3) (acc : ℚ),
      budgetLoop costs budget (sol.map toStep) acc =
        .ok ((sol.all fun st => (stepCost costs st).isSome) &&
          decide (acc + (sol.map fun st => (stepCost costs st).getD 0).sum ≤ budget)) := by
  intro sol
  induction sol with
  | nil =>
    intro acc
    simp only [List.map_nil, budgetLoop, List.all_nil, List.sum_nil, add_zero, Bool.true_and]
    rcases le_or_lt acc budget with hab | hab
    · rw [if_neg (by exact not_lt.mpr hab)]
      simp [hab]
    · rw [if_pos hab]
      simp [not_le.mpr hab]
  | cons st rest ih =>
    intro acc
    simp only [List.map_cons, toStep, budgetLoop, List.all_cons, List.sum_cons]
    cases hk : tripleKey st.1 st.2.1 st.2.2 with
    | none =>
      have hsc : stepCost costs st = Option.none := by simp [stepCost, hk]
      simp [hsc]
    | some key =>
      cases hl : costsLookup costs key with
      | none =>
        have hsc : stepCost costs st = Option.none := by simp [stepCost, hk, hl]
        simp [hl, hsc]
      | some c =>
        have hsc : stepCost costs st = some c := by simp [stepCost, hk, hl]
        simp only [hl, ih, hsc, Option.isSome_some, Bool.true_and, Option.getD_some]
        rw [← add_assoc]

/-- C2: on every cost table, budget and itinerary of 3-tuples the budget
validator returns a boolean (never raising): true exactly when every step's
composite key `origin + destination + mode` resolves to a cost present in
the table and the sum of the looked-up costs is at most the budget — so a
missing key, or a key concatenation whose `TypeError` the validator
catches, yields false; the second conjunct exercises the caught
`TypeError` on a step with an integer origin. -/
theorem travel_budget_spec :
    (∀ (costs : List (String × ℚ)) (budget : ℚ) (sol : List Step3),
        validateBudget costs budget (sol.map toStep) =
          .ok ((sol.all fun st => (stepCost costs st).isSome) &&
            decide ((sol.map fun st => (stepCost costs st).getD 0).sum ≤ budget)))
    ∧ validateBudget [] 0 [toStep (.int 1, .str "x", .str "y")] = Except.ok false := by
  constructor
  · intro costs budget sol
    unfold validateBudget
    rw [budgetLoop_toStep]
    simp only [zero_add]
  · rfl

/-- A successful connectivity walk passes only steps with exactly 3
fields. -/
theorem connWalk_len3 (graph : Graph) : ∀ (sol : List Step)
    (visited : Finset PyScalar) (current : PyScalar) (v : Finset PyScalar),
    connWalk graph sol visited current = some v → ∀ st ∈ sol, st.length = 3 := by
  intro sol
  induction sol with
  | nil => intro visited current v _ st hst; cases hst
  | cons step rest ih =>
    intro visited current v h st hst
    rcases step with _ | ⟨c1, _ | ⟨c2, _ | ⟨m, _ | ⟨x, xs⟩⟩⟩⟩ <;>
      simp only [connWalk] at h
    · cases h
    · cases h
    · cases h
    · by_cases he : edgeOk graph c1 c2 m
      · rw [if_pos he] at h
        by_cases hc : c1 = current
        · rw [if_pos hc] at h
          rcases List.mem_cons.mp hst with rfl | hst
          · rfl
          · exact ih _ _ _ h st hst
        · rw [if_neg hc] at h; cases h
      · rw [if_neg he] at h; cases h
    · cases h

/-- A connectivity validation that succeeds leaves only steps with exactly
3 fields. -/
theorem validateConnectivity_len3 {cityStart : String} {numCities : ℕ}
    {graph : Graph} {sol : List Step}
    (h : validateConnectivity cityStart numCities graph sol = true) :
    ∀ st ∈ sol, st.length = 3 := by
  unfold validateConnectivity at h
  cases hw : connWalk graph sol ∅ (.str cityStart) with
  | none => rw [hw] at h; cases h
  | some v => exact connWalk_len3 graph sol _ _ v hw

/-- On steps with exactly 3 fields the budget loop never raises. -/
theorem budgetLoop_ok_of_len3 (costs : List (String × ℚ)) (budget : ℚ) :
    ∀ (sol : List Step), (∀ st ∈ sol, st.length = 3) →
      ∀ acc, ∃ b, budgetLoop costs budget sol acc = .ok b := by
  intro sol
  induction sol with
  | nil =>
    intro _ acc
    rcases le_or_lt acc budget with hab | hab
    · exact ⟨true, by simp [budgetLoop, not_lt.mpr hab]⟩
    · exact ⟨false, by simp [budgetLoop, hab]⟩
  | cons step rest ih =>
    intro hlen acc
    obtain ⟨a, b, c, rfl⟩ := List.length_eq_three.mp (hlen step (by simp))
    cases hk : tripleKey a b c with
    | none => exact ⟨false, by simp [budgetLoop, hk]⟩
    | some key =>
      cases hl : costsLookup costs key with
      | none => exact ⟨false, by simp [budgetLoop, hk, hl]⟩
      | some q =>
        obtain ⟨b', hb'⟩ := ih (fun st hst => hlen st (by simp [hst])) (acc + q)
        exact ⟨b', by simp [budgetLoop, hk, hl, hb']⟩

/-- C3 counterexample: a candidate whose (last) step has a single field
makes `score_travel_eval` raise `IndexError` at `user_solution[-1][1]`
instead of returning a boolean. -/
theorem travel_score_short_last_step_raises :
    scoreTravelEval exGT [[PyScalar.str "x"]] = Except.error PyErr.indexError := rfl

/-- C3 as amended: provided the last step of the itinerary has at least 2
fields, `score_travel_eval` returns a boolean without raising, and returns
false whenever some step does not have exactly 3 fields. -/
theorem travel_score_total_when_last_step_long_enough :
    ∀ (gt : TravelGT) (sol : List Step),
      (∀ last, sol.getLast? = some last → 2 ≤ last.length) →
      (∃ b, scoreTravelEval gt sol = .ok b) ∧
        ((∃ st ∈ sol, st.length ≠ 3) → scoreTravelEval gt sol = .ok false) := by
  intro gt sol hlast
  cases hl : sol.getLast? with
  | none =>
    obtain rfl : sol = [] := List.getLast?_eq_none_iff.mp hl
    exact ⟨⟨false, rfl⟩, fun ⟨st, hst, _⟩ => absurd hst (List.not_mem_nil st)⟩
  | some last =>
    have h2 : 1 < last.length := by have := hlast last hl; omega
    obtain ⟨d, hd⟩ : ∃ d, last[1]? = some d := ⟨last[1], List.getElem?_eq_getElem h2⟩
    simp only [scoreTravelEval, hl, hd]
    by_cases hend : d = PyScalar.str gt.cityEnd
    · rw [if_pos hend]
      by_cases hconn : validateConnectivity gt.cityStart gt.steps gt.graph sol
      · rw [if_pos hconn]
        have hlen := validateConnectivity_len3 hconn
        obtain ⟨b, hb⟩ := budgetLoop_ok_of_len3 gt.costs gt.totalBudget sol hlen 0
        rw [show validateBudget gt.costs gt.totalBudget sol = .ok b from hb]
        constructor
        · cases b
          · exact ⟨false, rfl⟩
          · exact ⟨true, rfl⟩
        · rintro ⟨st, hst, hne3⟩
          exact absurd (hlen st hst) hne3
      · rw [if_neg hconn]
        exact ⟨⟨false, rfl⟩, fun _ => rfl⟩
    · rw [if_neg hend]
      exact ⟨⟨false, rfl⟩, fun _ => rfl⟩

/-- Witness for the amended C3 at a concrete input: a two-field step is
scored false without raising. -/
theorem travel_score_malformed_step_false_witness :
    scoreTravelEval exGT [[PyScalar.str "x", PyScalar.str "b"]] = Except.ok false :=
  (travel_score_total_when_last_step_long_enough exGT [[PyScalar.str "x", PyScalar.str "b"]]
      (fun last h => by
        obtain rfl : last = [PyScalar.str "x", PyScalar.str "b"] := by simpa using h.symm
        decide)).2
    ⟨[PyScalar.str "x", PyScalar.str "b"], by simp, by decide⟩

/-- C4 (supporting theorem for the code bug): counting extraction with
`k = 2` on a response the multi-answer pattern does not match raises
`UnboundLocalError` — `return [ans] * k` reads `ans`, which no executed
branch has assigned — instead of returning a sentinel sequence. -/
theorem count_multi_nomatch_raises :
    extractCountEval "" 2 = Except.error PyErr.nameError := rfl

/-- C5 (supporting theorem for the code bug): a python code block whose
literal evaluates to an empty list reaches `travel_plan[0]`, whose
`IndexError` is not caught (only `SyntaxError` is), so travel extraction
raises instead of returning an empty plan. -/
theorem travel_extract_empty_list_raises :
    extractTravelEval "```python\n[]\n```" = Except.error PyErr.indexError := rfl

/-- Finding the first element satisfying a predicate is taking the head of
the filtered list. -/
theorem find?_eq_head_filter (p : String → Bool) : ∀ xs : List String,
    xs.find? p = (xs.filter p).head? := by
  intro xs
  induction xs with
  | nil => rfl
  | cons x xs ih =>
    by_cases hx : p x
    · simp [List.find?_cons, List.filter_cons, hx]
    · simp only [List.find?_cons, List.filter_cons, hx]
      rw [ih]
      simp

/-- The unpuzzle loop over any pattern list returns the first
non-placeholder capture across the patterns in order, or the empty
string. -/
theorem unpuzzleGo_spec : ∀ (ps : List PatStep) (l : List Char),
    unpuzzleGo ps l =
      (((ps.map fun p => scanAll p l).flatten).filter
        fun s => ¬ isPlaceholder s).headD "" := by
  intro ps
  induction ps with
  | nil => intro l; rfl
  | cons p ps ih =>
    intro l
    simp only [unpuzzleGo, List.map_cons, List.flatten_cons, List.filter_append]
    rw [find?_eq_head_filter]
    cases h : (scanAll p l).filter fun s => ¬ isPlaceholder s with
    | nil => simp [h, ih]
    | cons a as => simp [h]

/-- C6 counterexample: on this response the first pattern's only capture is
the placeholder `answer`, yet a later pattern's capture `B` is returned —
the loop does not stop at the first pattern that has a match, so the result
is not the empty string the claim demands. -/
theorem unpuzzle_placeholder_fallthrough_cex :
    scanAll stepU1 ("boxed\x7banswer\x7d answer is: B!".data) = ["answer"]
    ∧ extractUnpuzzleEval "boxed\x7banswer\x7d answer is: B!" = "B" :=
  ⟨by decide, by decide⟩

/-- C6 as amended: for every response, open-ended extraction returns the
first captured value — patterns in priority order, captures within a
pattern in match order — that is not a placeholder literal; a pattern whose
captures are all placeholders is passed over and later patterns are still
tried, and the empty string results only when no pattern captures a
non-placeholder. -/
theorem unpuzzle_first_acceptable_across_patterns (response : String) :
    extractUnpuzzleEval response =
      (((findAnswers.map fun p => scanAll p response.data).flatten).filter
        fun s => ¬ isPlaceholder s).headD "" :=
  unpuzzleGo_spec findAnswers response.data

/-- Substring occurrence is infix occurrence. -/
theorem hasSub_iff_occurs (pat : List Char) : ∀ l, hasSub pat l = true ↔ pat <:+: l := by
  intro l
  induction l with
  | nil => simp [hasSub, List.isPrefixOf_iff_prefix]
  | cons c rest ih =>
    simp only [hasSub, Bool.or_eq_true, List.isPrefixOf_iff_prefix, ih, List.infix_cons_iff]

/-- Inversion of the rightmost-tag scan: some suffix carries a full tag. -/
theorem htmlLast_some {L : List Char} : ∀ {s : String} {e : ℕ},
    htmlLast L = some (s, e) → ∃ t, t <:+ L ∧ htmlAt t ≠ Option.none := by
  induction L with
  | nil => intro s e h; cases h
  | cons c rest ih =>
    intro s e h
    cases hr : htmlLast rest with
    | some p =>
      obtain ⟨t, ht, ha⟩ := ih hr
      exact ⟨t, ht.trans (List.suffix_cons c rest), ha⟩
    | none =>
      cases hh : htmlAt (c :: rest) with
      | some x => exact ⟨c :: rest, List.suffix_refl _, by simp [hh]⟩
      | none => simp [htmlLast, hr, hh] at h

/-- A position with a full tag starts with the opening tag. -/
theorem htmlAt_hasAnswer {t : List Char} (h : htmlAt t ≠ Option.none) :
    "<answer>".data <+: t := by
  unfold htmlAt at h
  by_cases hp : "<answer>".data.isPrefixOf t = true
  · exact List.isPrefixOf_iff_prefix.mp hp
  · rw [if_neg hp] at h
    exact absurd rfl h

/-- A successful anchored html match forces an `<answer>` occurrence. -/
theorem stepHtml_hasSub {l : List Char} {s : String} {k : ℕ}
    (h : stepHtml l = some (s, k)) : hasSub "<answer>".data l = true := by
  unfold stepHtml at h
  obtain ⟨t, ht, ha⟩ := htmlLast_some h
  have h1 : "<answer>".data <:+: l :=
    ((htmlAt_hasAnswer ha).isInfix.trans ht.isInfix).trans
      (List.takeWhile_prefix _).isInfix
  exact (hasSub_iff_occurs _ l).mpr h1

/-- Inversion of `re.search`: a successful search has a successful anchored
match at some suffix. -/
theorem searchFirst_some {step : PatStep} : ∀ {l : List Char} {s : String},
    searchFirst step l = some s → ∃ t k, t <:+ l ∧ step t = some (s, k) := by
  intro l
  induction l with
  | nil =>
    intro s h
    cases hs : step [] with
    | none => simp [searchFirst, hs] at h
    | some p =>
      obtain ⟨s', k⟩ := p
      simp only [searchFirst, hs, Option.some.injEq] at h
      subst h
      exact ⟨[], k, List.suffix_refl _, hs⟩
  | cons c rest ih =>
    intro s h
    cases hs : step (c :: rest) with
    | none =>
      simp only [searchFirst, hs] at h
      obtain ⟨t, k, ht, hstep⟩ := ih h
      exact ⟨t, k, ht.trans (List.suffix_cons c rest), hstep⟩
    | some p =>
      obtain ⟨s', k⟩ := p
      simp only [searchFirst, hs, Option.some.injEq] at h
      subst h
      exact ⟨c :: rest, k, List.suffix_refl _, hs⟩

/-- A successful anchored match at any suffix makes the search succeed. -/
theorem searchFirst_isSome_of {step : PatStep} : ∀ {l t : List Char} {s : String} {k : ℕ},
    t <:+ l → step t = some (s, k) → ∃ s', searchFirst step l = some s' := by
  intro l
  induction l with
  | nil =>
    intro t s k ht hstep
    obtain rfl : t = [] := List.suffix_nil.mp ht
    exact ⟨s, by simp [searchFirst, hstep]⟩
  | cons c rest ih =>
    intro t s k ht hstep
    cases hs : step (c :: rest) with
    | some p =>
      obtain ⟨s', k'⟩ := p
      exact ⟨s', by simp [searchFirst, hs]⟩
    | none =>
      rcases List.suffix_cons_iff.mp ht with rfl | ht'
      · rw [hstep] at hs; cases hs
      · obtain ⟨s', h'⟩ := ih ht' hstep
        exact ⟨s', by simp [searchFirst, hs, h']⟩

/-- Two prefixes of one list with equal lengths are equal. -/
theorem prefix_eq_of_length {p q t : List Char} (hp : p <+: t) (hq : q <+: t)
    (hlen : p.length = q.length) : p = q := by
  rcases List.prefix_or_prefix_of_prefix hp hq with h | h
  · exact h.eq_of_length hlen
  · exact (h.eq_of_length hlen.symm).symm

/-- Inversion of the anchored boxed-letter match. -/
theorem stepBoxedLetter_inv {t : List Char} {s : String} {k : ℕ}
    (h : stepBoxedLetter t = some (s, k)) :
    (s = "A" ∧ "boxed\x7bA\x7d".data <+: t) ∨ (s = "B" ∧ "boxed\x7bB\x7d".data <+: t)
    ∨ (s = "C" ∧ "boxed\x7bC\x7d".data <+: t)
    ∨ (s = "D" ∧ "boxed\x7bD\x7d".data <+: t) := by
  unfold stepBoxedLetter at h
  split_ifs at h with h1 h2 h3 h4
  · simp only [Option.some.injEq, Prod.mk.injEq] at h
    exact Or.inl ⟨h.1.symm, List.isPrefixOf_iff_prefix.mp h1⟩
  · simp only [Option.some.injEq, Prod.mk.injEq] at h
    exact Or.inr (Or.inl ⟨h.1.symm, List.isPrefixOf_iff_prefix.mp h2⟩)
  · simp only [Option.some.injEq, Prod.mk.injEq] at h
    exact Or.inr (Or.inr (Or.inl ⟨h.1.symm, List.isPrefixOf_iff_prefix.mp h3⟩))
  · simp only [Option.some.injEq, Prod.mk.injEq] at h
    exact Or.inr (Or.inr (Or.inr ⟨h.1.symm, List.isPrefixOf_iff_prefix.mp h4⟩))

/-- When `boxed{B}` occurs and no other boxed letter marker does, the boxed
search captures `B`. -/
theorem boxedSearch_B {l : List Char}
    (hB : hasSub "boxed\x7bB\x7d".data l = true)
    (hA : hasSub "boxed\x7bA\x7d".data l = false)
    (hC : hasSub "boxed\x7bC\x7d".data l = false)
    (hD : hasSub "boxed\x7bD\x7d".data l = false) :
    searchFirst stepBoxedLetter l = some "B" := by
  obtain ⟨t, hpre, hsuf⟩ := List.infix_iff_prefix_suffix.mp ((hasSub_iff_occurs _ l).mp hB)
  have hstep : stepBoxedLetter t = some ("B", 8) := by
    have hBp : "boxed\x7bB\x7d".data.isPrefixOf t = true :=
      List.isPrefixOf_iff_prefix.mpr hpre
    have hAp : ¬ ("boxed\x7bA\x7d".data.isPrefixOf t = true) := fun hc =>
      absurd (prefix_eq_of_length (List.isPrefixOf_iff_prefix.mp hc) hpre (by decide))
        (by decide)
    unfold stepBoxedLetter
    rw [if_neg hAp, if_pos hBp]
  obtain ⟨s', hs'⟩ := searchFirst_isSome_of hsuf hstep
  have hB' : s' = "B" := by
    obtain ⟨t', k', hsuf', hstep'⟩ := searchFirst_some hs'
    rcases stepBoxedLetter_inv hstep' with ⟨rfl, hp⟩ | ⟨rfl, hp⟩ | ⟨rfl, hp⟩ | ⟨rfl, hp⟩
    · rw [(hasSub_iff_occurs _ l).mpr (hp.isInfix.trans hsuf'.isInfix)] at hA
      cases hA
    · rfl
    · rw [(hasSub_iff_occurs _ l).mpr (hp.isInfix.trans hsuf'.isInfix)] at hC
      cases hC
    · rw [(hasSub_iff_occurs _ l).mpr (hp.isInfix.trans hsuf'.isInfix)] at hD
      cases hD
  rw [hB'] at hs'
  exact hs'

/-- C7 counterexample: this response contains a `boxed{B}` marker, a plain
`answer: A` phrase and no `<answer>` tag, yet logic extraction returns the
earlier boxed marker's `A`, not the `B` the claim demands. -/
theorem logic_boxed_priority_cex :
    hasSub "boxed\x7bB\x7d".data ("boxed\x7bA\x7d boxed\x7bB\x7d answer: A".data) = true
    ∧ hasSub "answer: A".data ("boxed\x7bA\x7d boxed\x7bB\x7d answer: A".data) = true
    ∧ hasSub "<answer>".data ("boxed\x7bA\x7d boxed\x7bB\x7d answer: A".data) = false
    ∧ extractLogicEval "boxed\x7bA\x7d boxed\x7bB\x7d answer: A" = "A" :=
  ⟨by decide, by decide, by decide, by decide⟩

/-- C7 as amended: logic extraction tries the html tag, then the boxed
marker, then the two `answer`-letter patterns, returning the first match's
capture; for every response with no `<answer>` tag that contains a
`boxed{B}` marker, no boxed marker with any other letter, and a plain
`answer: A` phrase, the result is `B`. -/
theorem logic_boxed_priority_amended :
    ∀ response : String,
      hasSub "<answer>".data response.data = false →
      hasSub "boxed\x7bB\x7d".data response.data = true →
      hasSub "boxed\x7bA\x7d".data response.data = false →
      hasSub "boxed\x7bC\x7d".data response.data = false →
      hasSub "boxed\x7bD\x7d".data response.data = false →
      hasSub "answer: A".data response.data = true →
      extractLogicEval response = "B" := by
  intro r hTag hB hA hC hD _
  have hhtml : searchFirst stepHtml r.data = Option.none := by
    cases hh : searchFirst stepHtml r.data with
    | none => rfl
    | some s =>
      obtain ⟨t, k, ht, hstep⟩ := searchFirst_some hh
      have h2 : hasSub "<answer>".data r.data = true :=
        (hasSub_iff_occurs _ _).mpr
          (((hasSub_iff_occurs _ t).mp (stepHtml_hasSub hstep)).trans ht.isInfix)
      rw [h2] at hTag
      cases hTag
  have hboxed := boxedSearch_B hB hA hC hD
  simp only [extractLogicEval, compiledRes, logicGo, hhtml, hboxed]

/-- Witness for the amended C7 at a concrete input. -/
theorem logic_boxed_priority_witness :
    extractLogicEval "boxed\x7bB\x7d answer: A" = "B" :=
  logic_boxed_priority_amended "boxed\x7bB\x7d answer: A"
    (by decide) (by decide) (by decide) (by decide) (by decide) (by decide)
